import Mathlib

/-!
Verification development for the @onurege3467/djs-suite command/interaction
dispatch engine.  The definitions below are a shallow embedding of the
JavaScript sources: `CommandHandler` (loading, cooldowns, permission gate,
dispatch listener, slash-command registration), `PermissionUtils`,
`CommonUtils.resolveRole` and `InteractionManager` (component handler table).
Timestamps are modelled as integers (milliseconds, the value of `Date.now()`),
and JavaScript runtime exceptions are modelled with an explicit error type.
-/

namespace DjsSuite

/-!
`Collection` models a discord.js `Collection` (a JS `Map`): an
insertion-ordered key/value store.  `set` replaces the value in place when the
key is present (keeping its position, as a JS `Map` does) and appends at the
end otherwise; `get` returns the value at the first (only) occurrence of the
key; iteration order for scans is the list order.
-/
abbrev Collection (K V : Type) : Type := List (K × V)

namespace Collection

variable {K V : Type} [DecidableEq K]

def get : Collection K V → K → Option V
  | [], _ => none
  | p :: rest, k => if p.1 = k then some p.2 else get rest k

def hasKey : Collection K V → K → Bool
  | [], _ => false
  | p :: rest, k => decide (p.1 = k) || hasKey rest k

def set : Collection K V → K → V → Collection K V
  | [], k, v => [(k, v)]
  | p :: rest, k, v => if p.1 = k then (k, v) :: rest else p :: set rest k v

theorem get_set_self (c : Collection K V) (k : K) (v : V) :
    get (set c k v) k = some v := by
  induction c with
  | nil => simp [get, set]
  | cons p rest ih =>
    by_cases h : p.1 = k
    · simp [set, h, get]
    · simp [set, h, get, ih]

theorem get_set_ne (c : Collection K V) (k k' : K) (v : V) (h : k' ≠ k) :
    get (set c k v) k' = get c k' := by
  have h' : ¬ (k = k') := fun hh => h hh.symm
  induction c with
  | nil => simp [get, set, h']
  | cons p rest ih =>
    by_cases hp : p.1 = k
    · have hpk' : ¬ (p.1 = k') := by rw [hp]; exact h'
      simp [set, hp, get, h', hpk']
    · by_cases hp' : p.1 = k'
      · simp [set, hp, get, hp', h]
      · simp [set, hp, get, hp', ih]

theorem hasKey_eq_isSome (c : Collection K V) (k : K) :
    hasKey c k = (get c k).isSome := by
  induction c with
  | nil => simp [get, hasKey]
  | cons p rest ih =>
    by_cases h : p.1 = k
    · simp [get, hasKey, h]
    · simp [get, hasKey, h, ih]

theorem hasKey_set (c : Collection K V) (k k' : K) (v : V) :
    hasKey (set c k v) k' = (decide (k' = k) || hasKey c k') := by
  induction c with
  | nil =>
    by_cases hk : k' = k
    · simp [set, hasKey, hk]
    · have hk' : ¬ (k = k') := fun hh => hk hh.symm
      simp [set, hasKey, hk, hk']
  | cons p rest ih =>
    by_cases hp : p.1 = k
    · by_cases hk : k' = k
      · simp [set, hp, hasKey, hk]
      · have hpk' : ¬ (p.1 = k') := by rw [hp]; exact fun hh => hk hh.symm
        simp [set, hp, hasKey, hk, hpk']
    · by_cases hp' : p.1 = k'
      · have hk : ¬ (k' = k) := fun hh => hp (hp'.trans hh)
        simp [set, hp, hasKey, hp', hk]
      · simp [set, hp, hasKey, hp', ih]

end Collection

/-! ## Data model (guilds, members, commands)

`Role`, `Guild` and `Member` model the slices of the discord.js objects that
the suite reads: a role has an `id` and a display `name`; a guild carries its
role cache (in insertion order) and `me`, the bot's own member's permission
token set (`guild.members.me`, `none` when unresolvable); a member carries its
id, its granted permission tokens (`member.permissions`, with the
administrator capability as the token "Administrator") and the ids of the
roles it holds (`member.roles.cache`).
-/

structure Role where
  id : String
  name : String
deriving DecidableEq, Repr

structure Guild where
  roles : List Role
  me : Option (List String)
deriving DecidableEq, Repr

structure Member where
  id : String
  permissions : List String
  roleIds : List String
  guild : Guild
deriving DecidableEq, Repr

/-- Internal command-type enum of `CommandHandler` (`CommandType` in
src/unnamed/part_000). -/
inductive CommandType where
  | SLASH
  | USER
  | MESSAGE
  | LEGACY
deriving DecidableEq, Repr

/-- A loaded command object, as `CommandHandler.loadCommands` stores it:
`type` is the derived `CommandType`; `dataName` is `command.data?.name`
(present exactly when the file exported application-command `data`);
`legacyName` is the legacy `command.name`; the remaining fields are the
declared requirements.  `cooldown = none` models an absent `cooldown`
property.  `handlerId` stands for the identity of the `execute` function, so
that distinct descriptor objects can be told apart. -/
structure Command where
  type : CommandType
  dataName : Option String
  legacyName : Option String
  aliases : List String
  permissions : List String
  roles : List String
  botPermissions : List String
  cooldown : Option Int
  guildOnly : Bool
  devOnly : Bool
  handlerId : Nat
deriving DecidableEq, Repr

/-- JavaScript runtime exceptions that the embedded code can raise. -/
inductive JsError where
  | referenceError (name : String)
deriving DecidableEq, Repr

instance {ε α : Type} [DecidableEq ε] [DecidableEq α] : DecidableEq (Except ε α) :=
  fun a b =>
    match a, b with
    | Except.ok x, Except.ok y => decidable_of_iff (x = y) (by simp)
    | Except.ok _, Except.error _ => isFalse (by simp)
    | Except.error _, Except.ok _ => isFalse (by simp)
    | Except.error x, Except.error y => decidable_of_iff (x = y) (by simp)

/-! ## String primitives

The JavaScript string operations used by the suite (`startsWith`, `endsWith`,
`slice`, `toLowerCase`, length) are modelled on the character list of the
Lean string, which coincides with the byte-based core functions on all
strings.
-/

def strStartsWith (s p : String) : Bool := p.data.isPrefixOf s.data

def strEndsWith (s p : String) : Bool := p.data.isSuffixOf s.data

def strDrop (s : String) (n : Nat) : String := ⟨s.data.drop n⟩

def strDropRight (s : String) (n : Nat) : String := ⟨s.data.take (s.data.length - n)⟩

def strLen (s : String) : Nat := s.data.length

def strToLower (s : String) : String := ⟨s.data.map Char.toLower⟩

/-! ## CommonUtils.resolveRole and PermissionUtils -/

/-- True for a non-empty string of decimal digits. -/
def isDigits (s : String) : Bool :=
  !s.data.isEmpty && s.data.all (fun ch => ch.isDigit)

/-- Embeds the regex match `roleResolvable.match(/^<@&(\d+)>$/)` used by
`CommonUtils.resolveRole`: returns the captured digit group of a role
mention, or `none`. -/
def parseRoleMention (s : String) : Option String :=
  if strStartsWith s "<@&" && strEndsWith s ">" && decide (5 ≤ strLen s) then
    let inner := strDropRight (strDrop s 3) 1
    if isDigits inner then some inner else none
  else none

/-- Embeds `CommonUtils.resolveRole(guild, roleResolvable)` for a string resolvable:
cache lookup by id, then by the id captured from a role mention, then by
case-insensitive name; `none` when nothing matches. -/
def resolveRole (g : Guild) (r : String) : Option Role :=
  match g.roles.find? (fun role => role.id = r) with
  | some role => some role
  | none =>
    match (parseRoleMention r).bind (fun rid => g.roles.find? (fun role => role.id = rid)) with
    | some role => some role
    | none => g.roles.find? (fun role => strToLower role.name = strToLower r)

/-- The permission test of `PermissionUtils.hasPermission` on a member's
permission token set: the administrator capability satisfies everything,
otherwise the requested token must be held. -/
def hasPermissionSet (perms : List String) (perm : String) : Bool :=
  perms.contains "Administrator" || perms.contains perm

/-- Embeds `PermissionUtils.hasPermission(member, permission)`: `false` for a null
member, otherwise the token-set test. -/
def hasPermission : Option Member → String → Bool
  | none, _ => false
  | some m, perm => hasPermissionSet m.permissions perm

/-- Embeds `PermissionUtils.hasRole(member, roleResolvable)`: resolve the role in the
member's guild and test membership by role id; `false` for a null member or an
unresolvable role. -/
def hasRole : Option Member → String → Bool
  | none, _ => false
  | some m, rr =>
    match resolveRole m.guild rr with
    | some role => m.roleIds.contains role.id
    | none => false

/-! ## CommandHandler._checkPermissions -/

/-- The `missingUserPerms` computation of `CommandHandler._checkPermissions`:
the required user permissions the member does not pass
`PermissionUtils.hasPermission` for. -/
def missingUserPerms (cmd : Command) (m : Member) : List String :=
  cmd.permissions.filter (fun perm => !(hasPermission (some m) perm))

/-- Embeds `CommandHandler._checkPermissions(command, member)`.  Returns
`.ok none` when all checks pass, `.ok (some msg)` for the early-return denial
message, and `.error` when the JavaScript would throw.  The role-denial
branch throws: it evaluates `CommonUtils.resolveRole`, but the
`CommandHandler` module (src/unnamed/part_000) imports only `fs`, `path`,
discord.js pieces, `PermissionUtils` and `Logger` — the identifier
`CommonUtils` is unbound there, so building the role-name message raises
`ReferenceError: CommonUtils is not defined`. -/
def checkPermissions (ownerIds : List String) (cmd : Command) (member : Option Member) :
    Except JsError (Option String) :=
  if cmd.guildOnly && member.isNone then
    Except.ok (some "This command can only be used inside a server.")
  else if cmd.devOnly && !(match member with
                           | some m => ownerIds.contains m.id
                           | none => false) then
    Except.ok (some "This command can only be used by the bot owner(s).")
  else
    match member with
    | none => Except.ok none
    | some m =>
      if !cmd.permissions.isEmpty && !(missingUserPerms cmd m).isEmpty then
        Except.ok (some ("You lack the required permissions: `"
          ++ String.intercalate ", " (missingUserPerms cmd m) ++ "`"))
      else if !cmd.roles.isEmpty && !(cmd.roles.any (fun rr => hasRole (some m) rr)) then
        Except.error (JsError.referenceError "CommonUtils")
      else if !cmd.botPermissions.isEmpty then
        match m.guild.me with
        | none => Except.ok (some "Could not verify bot permissions.")
        | some botPerms =>
          let missingBotPerms :=
            cmd.botPermissions.filter (fun perm => !(hasPermissionSet botPerms perm))
          if !missingBotPerms.isEmpty then
            Except.ok (some ("I lack the required permissions for this command: `"
              ++ String.intercalate ", " missingBotPerms ++ "`"))
          else Except.ok none
      else Except.ok none

/-! ## CommandHandler._handleCooldown

`this.cooldowns` is a `Collection<userId, Collection<commandIdentifier,
timestamp>>`.  The inner key is `command.data?.name || command.name`, which in
JavaScript may be `undefined` — hence `Option String` keys.  The stored value
is the `Date.now()` timestamp at which the cooldown was armed.  The
`setTimeout` that deletes an entry exactly at its expiry is not part of the
state transition modelled here; `_handleCooldown` itself treats an expired
entry and an absent entry identically (both via `|| 0`), so the check results
are unaffected by that deletion.
-/

abbrev UserCooldowns : Type := Collection (Option String) Int

abbrev CooldownState : Type := Collection String UserCooldowns

/-- Computes `command.data?.name || command.name` (JavaScript `||`, so an empty
`data.name` also falls through to the legacy name). -/
def cmdIdent (c : Command) : Option String :=
  match c.dataName with
  | some n => if n = "" then c.legacyName else some n
  | none => c.legacyName

/-- The user's cooldown collection, `[]` when the user has none yet. -/
def userCooldownsOf (s : CooldownState) (u : String) : UserCooldowns :=
  (Collection.get s u).getD []

/-- The `if (!this.cooldowns.has(userId)) this.cooldowns.set(userId, new
Collection())` step of `_handleCooldown`. -/
def ensureUser (s : CooldownState) (u : String) : CooldownState :=
  if Collection.hasKey s u then s else Collection.set s u []

/-- Embeds `CommandHandler._handleCooldown(command, userId)` at time `now`, as a pure
state transition.  Result `none` is the JavaScript `false` ("not on cooldown",
and the cooldown is armed as a side effect); result `some r` is the JavaScript
`timeLeft` return in milliseconds (the source divides by 1000 to report
seconds). -/
def handleCooldown (cooldowns : CooldownState) (cmd : Command) (userId : String) (now : Int) :
    Option Int × CooldownState :=
  match cmd.cooldown with
  | none => (none, cooldowns)
  | some d =>
    if d ≤ 0 then (none, cooldowns)
    else
      let cooldowns1 := ensureUser cooldowns userId
      let userCooldowns := userCooldownsOf cooldowns1 userId
      let ident := cmdIdent cmd
      let expirationTime := (Collection.get userCooldowns ident).getD 0 + d * 1000
      if now < expirationTime then
        (some (expirationTime - now), cooldowns1)
      else
        (none, Collection.set cooldowns1 userId (Collection.set userCooldowns ident now))

/-- The cooldown state after `_handleCooldown` armed (or re-armed) the entry
for `(u, ident)` at time `now`: the user's collection is created when absent,
and the entry is set to `now`. -/
def armedState (s : CooldownState) (u : String) (ident : Option String) (now : Int) :
    CooldownState :=
  Collection.set (ensureUser s u) u (Collection.set (userCooldownsOf s u) ident now)

theorem get_ensureUser (s : CooldownState) (u : String) :
    (Collection.get (ensureUser s u) u).getD [] = (Collection.get s u).getD [] := by
  by_cases h : Collection.hasKey s u
  · simp [ensureUser, h]
  · have hnone : Collection.get s u = none := by
      have hk := Collection.hasKey_eq_isSome s u
      cases hg : Collection.get s u with
      | none => rfl
      | some v => rw [hg] at hk; simp [hk] at h
    simp [ensureUser, h, hnone, Collection.get_set_self]

theorem userCooldownsOf_ensureUser (s : CooldownState) (u : String) :
    userCooldownsOf (ensureUser s u) u = userCooldownsOf s u := by
  simp [userCooldownsOf, get_ensureUser]

/-- Running `_handleCooldown` with an enabled cooldown and no unexpired entry: returns
"ready" and arms the entry at `now`. -/
theorem handleCooldown_ready_arm (s : CooldownState) (cmd : Command) (u : String) (d now : Int)
    (hcd : cmd.cooldown = some d) (hdpos : 0 < d)
    (hexp : (Collection.get (userCooldownsOf s u) (cmdIdent cmd)).getD 0 + d * 1000 ≤ now) :
    handleCooldown s cmd u now = (none, armedState s u (cmdIdent cmd) now) := by
  have hd0 : ¬ (d ≤ 0) := by omega
  have hnot : ¬ (now < (Collection.get (userCooldownsOf s u) (cmdIdent cmd)).getD 0
      + d * 1000) := by omega
  simp only [handleCooldown, hcd, hd0, if_false, armedState, userCooldownsOf_ensureUser]
  rw [if_neg hnot]

/-- Running `_handleCooldown` with an enabled cooldown and an unexpired entry `ts`:
returns the remaining time and leaves the state untouched. -/
theorem handleCooldown_blocked (s : CooldownState) (cmd : Command) (u : String) (d ts now : Int)
    (hcd : cmd.cooldown = some d) (hdpos : 0 < d)
    (hts : Collection.get (userCooldownsOf s u) (cmdIdent cmd) = some ts)
    (hlt : now < ts + d * 1000) :
    handleCooldown s cmd u now = (some (ts + d * 1000 - now), s) := by
  have hd0 : ¬ (d ≤ 0) := by omega
  have hkey : Collection.hasKey s u = true := by
    cases hg : Collection.get s u with
    | none => rw [userCooldownsOf, hg] at hts; simp [Collection.get] at hts
    | some uc => rw [Collection.hasKey_eq_isSome, hg]; rfl
  have hens : ensureUser s u = s := by simp [ensureUser, hkey]
  simp only [handleCooldown, hcd, hd0, if_false, hens, hts, Option.getD_some, hlt, if_pos]

/-- Running `_handleCooldown` with a disabled or absent cooldown: always ready, no
entry created. -/
theorem handleCooldown_disabled (s : CooldownState) (cmd : Command) (u : String) (now : Int)
    (h : cmd.cooldown = none ∨ ∃ d, cmd.cooldown = some d ∧ d ≤ 0) :
    handleCooldown s cmd u now = (none, s) := by
  rcases h with h | ⟨d, hd, hle⟩
  · simp [handleCooldown, h]
  · simp [handleCooldown, hd, hle]

theorem userCooldownsOf_armedState (s : CooldownState) (u : String) (ident : Option String)
    (t : Int) :
    userCooldownsOf (armedState s u ident t) u = Collection.set (userCooldownsOf s u) ident t := by
  simp [armedState, userCooldownsOf, Collection.get_set_self]

theorem get_armedState_entry (s : CooldownState) (u : String) (ident : Option String) (t : Int) :
    Collection.get (userCooldownsOf (armedState s u ident t) u) ident = some t := by
  rw [userCooldownsOf_armedState, Collection.get_set_self]

/-! ## The interactionCreate dispatch listener -/

/-- The shape of an inbound interaction as classified by
`CommandHandler._listen`: which of `isChatInputCommand` /
`isUserContextMenuCommand` / `isMessageContextMenuCommand` holds, or none of
them. -/
inductive IKind where
  | chatInput
  | userContextMenu
  | messageContextMenu
  | other
deriving DecidableEq, Repr

/-- The command type the listener assigns to each interaction shape
(`none` = the listener returns immediately). -/
def classify : IKind → Option CommandType
  | .chatInput => some .SLASH
  | .userContextMenu => some .USER
  | .messageContextMenu => some .MESSAGE
  | .other => none

/-- An inbound command interaction: its shape, `commandName`, `user.id`,
`member` (null in DMs) and whether a reply was already issued or deferred. -/
structure Interaction where
  ikind : IKind
  commandName : String
  userId : String
  member : Option Member
  replied : Bool
  deferred : Bool
deriving DecidableEq, Repr

/-- The observable outcome of one run of the `interactionCreate` listener.
`notFound b` is the unknown-or-mismatched-command branch, where `b` records
whether the single best-effort error reply was attempted (`!replied &&
!deferred`); `cooldownBlocked r` replies with `r / 1000` seconds remaining;
`uncaughtError e` means the listener body itself threw `e` (escaping as an
unhandled promise rejection); `executed n` means control reached
`command.execute`. -/
inductive DispatchOutcome where
  | ignored
  | notFound (replyAttempted : Bool)
  | cooldownBlocked (remainingMs : Int)
  | permissionDenied (reason : String)
  | uncaughtError (e : JsError)
  | executed (commandName : String)
deriving DecidableEq, Repr

/-- The `CommandHandler` state the listener reads: the command table, the
configured owner ids and the cooldown table. -/
structure HandlerState where
  commands : Collection String Command
  ownerIds : List String
  cooldowns : CooldownState
deriving Repr

/-- One run of the `interactionCreate` listener of `CommandHandler._listen`
at time `now`: classify, resolve (`notFound` on a missing name or a
`command.type !== commandType` mismatch), cooldown check, permission check,
then execution.  Returns the outcome and the cooldown state left behind. -/
def dispatchInteraction (H : HandlerState) (i : Interaction) (now : Int) :
    DispatchOutcome × CooldownState :=
  match classify i.ikind with
  | none => (.ignored, H.cooldowns)
  | some ctype =>
    match Collection.get H.commands i.commandName with
    | none => (.notFound (!i.replied && !i.deferred), H.cooldowns)
    | some cmd =>
      if cmd.type ≠ ctype then
        (.notFound (!i.replied && !i.deferred), H.cooldowns)
      else
        match handleCooldown H.cooldowns cmd i.userId now with
        | (some remaining, cooldowns2) => (.cooldownBlocked remaining, cooldowns2)
        | (none, cooldowns2) =>
          match checkPermissions H.ownerIds cmd i.member with
          | .error e => (.uncaughtError e, cooldowns2)
          | .ok (some reason) => (.permissionDenied reason, cooldowns2)
          | .ok none => (.executed i.commandName, cooldowns2)

/-! ## CommandHandler.loadCommands registration step -/

/-- The name a command is registered under: `command.data.name` for
application commands, `command.name` for legacy commands (`none` = the file
was skipped with a warning). -/
def registrationName (c : Command) : Option String :=
  match c.type with
  | .LEGACY => c.legacyName
  | _ => c.dataName

/-- The alias-registration loop of `loadCommands`: each alias that is already
present (as a command name or an earlier alias) is skipped with a warning,
otherwise it is pointed at the same command object. -/
def aliasFold {K V : Type} [DecidableEq K] (l : List K) (acc : Collection K V) (v : V) :
    Collection K V :=
  l.foldl (fun ac al => if Collection.hasKey ac al then ac else Collection.set ac al v) acc

/-- The per-command registration step of `loadCommands`: overwrite the main
name (warning on conflict), then register aliases for legacy commands. -/
def loadOne (commands : Collection String Command) (cmd : Command) :
    Collection String Command :=
  match registrationName cmd with
  | none => commands
  | some n =>
    let commands1 := Collection.set commands n cmd
    if cmd.type = CommandType.LEGACY then aliasFold cmd.aliases commands1 cmd
    else commands1

/-- The alias loop never touches a key that is already registered. -/
theorem get_aliasFold_of_hasKey {K V : Type} [DecidableEq K] (l : List K)
    (acc : Collection K V) (v : V) (a : K) (h : Collection.hasKey acc a = true) :
    Collection.get (aliasFold l acc v) a = Collection.get acc a := by
  induction l generalizing acc with
  | nil => rfl
  | cons al rest ih =>
    simp only [aliasFold, List.foldl_cons] at ih ⊢
    by_cases hk : Collection.hasKey acc al = true
    · rw [if_pos hk]
      exact ih acc h
    · rw [if_neg hk]
      have hne : a ≠ al := by
        intro hh
        rw [hh] at h
        exact hk h
      have h' : Collection.hasKey (Collection.set acc al v) a = true := by
        rw [Collection.hasKey_set]
        simp [h]
      rw [ih (Collection.set acc al v) h']
      exact Collection.get_set_ne acc al a v hne

/-- A fresh alias in the loop ends up bound to the command object. -/
theorem get_aliasFold_of_mem {K V : Type} [DecidableEq K] (l : List K)
    (acc : Collection K V) (v : V) (a : K) (hmem : a ∈ l)
    (h : Collection.hasKey acc a = false) :
    Collection.get (aliasFold l acc v) a = some v := by
  revert hmem
  induction l generalizing acc with
  | nil => intro hmem; cases hmem
  | cons al rest ih =>
    intro hmem
    simp only [aliasFold, List.foldl_cons] at ih ⊢
    by_cases hal : a = al
    · have hk : ¬ (Collection.hasKey acc al = true) := by
        rw [← hal, h]; exact Bool.false_ne_true
      rw [if_neg hk, ← hal]
      have h' : Collection.hasKey (Collection.set acc a v) a = true := by
        rw [Collection.hasKey_set]; simp
      have := get_aliasFold_of_hasKey rest (Collection.set acc a v) v a h'
      simp only [aliasFold] at this
      rw [this, Collection.get_set_self]
    · have hmem' : a ∈ rest := by
        cases hmem with
        | head => exact absurd rfl hal
        | tail _ hm => exact hm
      by_cases hk : Collection.hasKey acc al = true
      · rw [if_pos hk]
        exact ih acc h hmem'
      · rw [if_neg hk]
        have h' : Collection.hasKey (Collection.set acc al v) a = false := by
          rw [Collection.hasKey_set]
          simp [h, hal]
        exact ih (Collection.set acc al v) h' hmem'

/-! ## InteractionManager: component handler table -/

/-- The `type` tag of a registered component handler
(`'button' | 'select' | 'modal'`). -/
inductive HandlerType where
  | button
  | select
  | modal
deriving DecidableEq, Repr

/-- The value stored in `InteractionManager.handlers`: the type tag and the
identity of the handler function. -/
structure HandlerData where
  type : HandlerType
  handlerId : Nat
deriving DecidableEq, Repr

/-- Models `InteractionManager.handlers`: `Collection<customIdPrefixOrExactId,
{ type, handler }>`, keyed by the pattern string alone. -/
abbrev HandlerTable : Type := Collection String HandlerData

/-- Embeds `InteractionManager.registerHandler(customId, type, handler)` (with a
valid type tag and a callable handler, the two argument validations that
throw otherwise): stores under the pattern key, overwriting any earlier
binding for the same key. -/
def registerHandler (hs : HandlerTable) (customId : String) (t : HandlerType) (h : Nat) :
    HandlerTable :=
  Collection.set hs customId ⟨t, h⟩

/-- Embeds `InteractionManager._findHandler(customId, type)`: exact-key lookup first
(used only when the stored type tag matches), then a scan over all entries in
registration order for the first key ending in `'*'` whose stripped text
(`key.slice(0, -1)`) is a literal prefix of `customId`, with the same type
tag. -/
def findHandler (hs : HandlerTable) (customId : String) (t : HandlerType) : Option Nat :=
  let exact :=
    match Collection.get hs customId with
    | some hd => if hd.type = t then some hd.handlerId else none
    | none => none
  match exact with
  | some h => some h
  | none =>
    (hs.find? (fun p =>
        strEndsWith p.1 "*" && decide (p.2.type = t)
          && strStartsWith customId (strDropRight p.1 1))).map
      (fun p => p.2.handlerId)

/-! ## CommandHandler.registerSlashCommands -/

/-- What `registerSlashCommands` reads from the client: `client.token`,
`client.application?.id`, and whether the remote `rest.put` call would throw
(a platform-level failure). -/
structure ClientState where
  token : Option String
  applicationId : Option String
  remotePushFails : Bool
deriving DecidableEq, Repr

/-- Observable result of one `registerSlashCommands()` call.  The first three
constructors are the logged early returns.  `rejectedWith e` models the async
method's promise rejecting with the uncaught exception `e`. -/
inductive RegResult where
  | noCommands
  | noToken
  | noApplicationId
  | registered (count : Nat)
  | rejectedWith (e : JsError)
deriving DecidableEq, Repr

/-- Embeds `CommandHandler.registerSlashCommands()`.  It filters the table to
non-legacy commands with `data`, early-returns (logged) when the list is
empty, the token is missing, or the application id is missing, then issues
the remote put inside a `try`.  When the remote put throws, the `catch` block
evaluates `` `Failed to register application commands ${locationDescription}:` ``
— but `locationDescription` is declared with `let` *inside* the `try` block,
a scope the `catch` block cannot see, so the `catch` itself throws
`ReferenceError: locationDescription is not defined` and the rejection
escapes the method un-logged.  The method never writes `this.commands`; the
returned table is the (unchanged) input table. -/
def registerSlashCommands (commands : Collection String Command) (client : ClientState) :
    RegResult × Collection String Command :=
  let applicationCommandsData :=
    commands.filter (fun p => decide (p.2.type ≠ CommandType.LEGACY) && p.2.dataName.isSome)
  if applicationCommandsData.isEmpty then (.noCommands, commands)
  else if client.token.isNone then (.noToken, commands)
  else if client.applicationId.isNone then (.noApplicationId, commands)
  else if client.remotePushFails then
    (.rejectedWith (JsError.referenceError "locationDescription"), commands)
  else (.registered applicationCommandsData.length, commands)

/-! ## Concrete fixtures -/

def emptyGuild : Guild := ⟨[], none⟩

def modGuild : Guild := ⟨[⟨"r1", "Moderator"⟩, ⟨"r2", "Helper"⟩], none⟩

/-- A guild member holding neither the administrator capability nor
"KickMembers". -/
def memberNoPerms : Member := ⟨"u1", [], [], emptyGuild⟩

/-- A guild member holding the platform's administrator capability. -/
def adminMember : Member := ⟨"u9", ["Administrator"], [], emptyGuild⟩

/-- A member of `modGuild` holding the "Moderator" role (one of two required
roles) but not "Helper". -/
def memberWithModRole : Member := ⟨"u1", [], ["r1"], modGuild⟩

/-- A member of `modGuild` holding neither required role. -/
def memberNoRoles : Member := ⟨"u2", [], [], modGuild⟩

/-- The spec's end-to-end scenario command: slash command "kick",
`cooldownSeconds = 5`, `requiredUserCapabilities = {"KickMembers"}`. -/
def kickCmd : Command := ⟨.SLASH, some "kick", none, [], ["KickMembers"], [], [], some 5, true, false, 1⟩

/-- A slash command requiring one of the roles "Moderator" or "Helper", with
no cooldown. -/
def rolesCmd : Command := ⟨.SLASH, some "mod", none, [], [], ["Moderator", "Helper"], [], none, true, false, 2⟩

/-- A handler state with only `kickCmd` loaded and no cooldowns armed. -/
def kickState : HandlerState := ⟨[("kick", kickCmd)], [], []⟩

/-- A chat-input invocation of "kick" by `memberNoPerms`, reply not yet
consumed. -/
def kickInteraction : Interaction := ⟨.chatInput, "kick", "u1", some memberNoPerms, false, false⟩

/-! ## Claims -/

/-- C1 (counterexample): with `kickCmd` (`cooldownSeconds = 5`,
requires "KickMembers") invoked at t = 1000000 by an actor lacking the
capability, the permission gate denies the invocation — yet the cooldown
state is changed: the entry for ("u1", "kick") is armed at 1000000, and the
same actor's immediately following invocation at t = 1001000 is Blocked with
4000 ms remaining.  This contradicts the claim that a denied invocation
leaves the cooldown state unchanged: in `_listen` the cooldown check runs
before the permission check. -/
theorem denied_invocation_cooldown_cex :
    (dispatchInteraction kickState kickInteraction 1000000).1
        = .permissionDenied "You lack the required permissions: `KickMembers`" ∧
    (dispatchInteraction kickState kickInteraction 1000000).2 ≠ kickState.cooldowns ∧
    Collection.get (userCooldownsOf (dispatchInteraction kickState kickInteraction 1000000).2 "u1")
        (some "kick") = some 1000000 ∧
    (dispatchInteraction ⟨kickState.commands, kickState.ownerIds,
        (dispatchInteraction kickState kickInteraction 1000000).2⟩ kickInteraction 1001000).1
      = .cooldownBlocked 4000 := by
  decide

/-- C1 (amended): for every command descriptor with `cooldownSeconds > 0` and
no unexpired cooldown entry, an invocation that the permission gate denies
DOES arm the cooldown for that (user, command) pair — the cooldown check runs
before the permission gate — so an immediately following invocation by the
same actor within the window is Blocked with the remaining time. -/
theorem denied_invocation_arms_cooldown
    (H : HandlerState) (i : Interaction) (cmd : Command) (d t1 t2 : Int) (reason : String)
    (hres : Collection.get H.commands i.commandName = some cmd)
    (hkind : classify i.ikind = some cmd.type)
    (hcd : cmd.cooldown = some d) (hdpos : 0 < d)
    (hfresh : (Collection.get (userCooldownsOf H.cooldowns i.userId) (cmdIdent cmd)).getD 0
        + d * 1000 ≤ t1)
    (hdeny : checkPermissions H.ownerIds cmd i.member = Except.ok (some reason))
    (ht2 : t2 < t1 + d * 1000) :
    dispatchInteraction H i t1
        = (.permissionDenied reason, armedState H.cooldowns i.userId (cmdIdent cmd) t1) ∧
    (dispatchInteraction ⟨H.commands, H.ownerIds,
        armedState H.cooldowns i.userId (cmdIdent cmd) t1⟩ i t2).1
      = .cooldownBlocked (t1 + d * 1000 - t2) := by
  have harm := handleCooldown_ready_arm H.cooldowns cmd i.userId d t1 hcd hdpos hfresh
  have hentry := get_armedState_entry H.cooldowns i.userId (cmdIdent cmd) t1
  have hblock := handleCooldown_blocked (armedState H.cooldowns i.userId (cmdIdent cmd) t1)
      cmd i.userId d t1 t2 hcd hdpos hentry ht2
  constructor
  · simp [dispatchInteraction, hkind, hres, harm, hdeny]
  · simp [dispatchInteraction, hkind, hres, hblock]

theorem denied_invocation_arms_cooldown_witness :
    dispatchInteraction kickState kickInteraction 1000000
        = (.permissionDenied "You lack the required permissions: `KickMembers`",
           armedState kickState.cooldowns "u1" (cmdIdent kickCmd) 1000000) ∧
    (dispatchInteraction ⟨kickState.commands, kickState.ownerIds,
        armedState kickState.cooldowns "u1" (cmdIdent kickCmd) 1000000⟩ kickInteraction 1001000).1
      = .cooldownBlocked (1000000 + 5 * 1000 - 1001000) :=
  denied_invocation_arms_cooldown kickState kickInteraction kickCmd 5 1000000 1001000
    "You lack the required permissions: `KickMembers`"
    (by decide) (by decide) (by decide) (by decide) (by decide) (by decide) (by decide)

/-- C3: the cooldown check protocol of `_handleCooldown` for every
(userId, commandIdentifier) and `cooldownSeconds`: (1) with
`cooldownSeconds <= 0` or absent, always Ready and the state (hence the set
of entries) is unchanged; (2) with no unexpired entry, Ready, and the entry
is armed so that it expires at `now + cooldownSeconds*1000`; (3) a check
strictly before that expiry is Blocked with remaining time `expiry - now`
(milliseconds) and does not reset the entry (state unchanged); (4) a check at
or after expiry is Ready again and re-arms the entry. -/
theorem cooldown_check_protocol :
    (∀ (s : CooldownState) (cmd : Command) (u : String) (t : Int),
        (cmd.cooldown = none ∨ ∃ d, cmd.cooldown = some d ∧ d ≤ 0) →
        handleCooldown s cmd u t = (none, s)) ∧
    (∀ (s : CooldownState) (cmd : Command) (u : String) (d t : Int),
        cmd.cooldown = some d → 0 < d →
        (Collection.get (userCooldownsOf s u) (cmdIdent cmd)).getD 0 + d * 1000 ≤ t →
        handleCooldown s cmd u t = (none, armedState s u (cmdIdent cmd) t) ∧
        Collection.get (userCooldownsOf (armedState s u (cmdIdent cmd) t) u) (cmdIdent cmd)
          = some t) ∧
    (∀ (s : CooldownState) (cmd : Command) (u : String) (d ts t : Int),
        cmd.cooldown = some d → 0 < d →
        Collection.get (userCooldownsOf s u) (cmdIdent cmd) = some ts →
        t < ts + d * 1000 →
        handleCooldown s cmd u t = (some (ts + d * 1000 - t), s)) ∧
    (∀ (s : CooldownState) (cmd : Command) (u : String) (d t1 t3 : Int),
        cmd.cooldown = some d → 0 < d → t1 + d * 1000 ≤ t3 →
        handleCooldown (armedState s u (cmdIdent cmd) t1) cmd u t3
          = (none, armedState (armedState s u (cmdIdent cmd) t1) u (cmdIdent cmd) t3)) := by
  refine ⟨?_, ?_, ?_, ?_⟩
  · exact fun s cmd u t h => handleCooldown_disabled s cmd u t h
  · intro s cmd u d t hcd hdpos hexp
    exact ⟨handleCooldown_ready_arm s cmd u d t hcd hdpos hexp,
      get_armedState_entry s u (cmdIdent cmd) t⟩
  · intro s cmd u d ts t hcd hdpos hts hlt
    exact handleCooldown_blocked s cmd u d ts t hcd hdpos hts hlt
  · intro s cmd u d t1 t3 hcd hdpos hle
    apply handleCooldown_ready_arm _ cmd u d t3 hcd hdpos
    rw [get_armedState_entry]
    simpa using hle

theorem cooldown_check_protocol_witness :
    handleCooldown [] rolesCmd "u1" 7 = (none, []) ∧
    (handleCooldown [] kickCmd "u1" 1000000
        = (none, armedState [] "u1" (cmdIdent kickCmd) 1000000) ∧
      Collection.get (userCooldownsOf (armedState [] "u1" (cmdIdent kickCmd) 1000000) "u1")
          (cmdIdent kickCmd) = some 1000000) ∧
    handleCooldown (armedState [] "u1" (cmdIdent kickCmd) 1000000) kickCmd "u1" 1001000
        = (some (1000000 + 5 * 1000 - 1001000), armedState [] "u1" (cmdIdent kickCmd) 1000000) ∧
    handleCooldown (armedState [] "u1" (cmdIdent kickCmd) 1000000) kickCmd "u1" 1005000
        = (none, armedState (armedState [] "u1" (cmdIdent kickCmd) 1000000) "u1"
            (cmdIdent kickCmd) 1005000) :=
  ⟨cooldown_check_protocol.1 [] rolesCmd "u1" 7 (Or.inl (by decide)),
   cooldown_check_protocol.2.1 [] kickCmd "u1" 5 1000000 (by decide) (by decide) (by decide),
   cooldown_check_protocol.2.2.1 (armedState [] "u1" (cmdIdent kickCmd) 1000000) kickCmd "u1" 5
     1000000 1001000 (by decide) (by decide) (by decide) (by decide),
   cooldown_check_protocol.2.2.2 [] kickCmd "u1" 5 1000000 1005000 (by decide) (by decide)
     (by decide)⟩

/-- C2: the OR semantics of the required-roles check holds (a member holding
one of the two required roles passes the gate), but the denial side is
broken in the code: for a member holding neither role, `_checkPermissions`
does not return a denial message naming the roles — it throws
`ReferenceError: CommonUtils is not defined` while building the role-name
list (the `CommandHandler` module never imports `CommonUtils`), and that
exception escapes the dispatch listener. -/
theorem role_gate_or_semantics_and_denial_throws :
    checkPermissions [] rolesCmd (some memberWithModRole) = Except.ok none ∧
    checkPermissions [] rolesCmd (some memberNoRoles)
        = Except.error (JsError.referenceError "CommonUtils") ∧
    (dispatchInteraction ⟨[("mod", rolesCmd)], [], []⟩
        ⟨.chatInput, "mod", "u2", some memberNoRoles, false, false⟩ 1000000).1
      = .uncaughtError (JsError.referenceError "CommonUtils") := by
  decide

/-- C4: for every inbound command interaction whose name resolves to no
registered descriptor, or whose resolved descriptor's kind differs from the
classified kind, the dispatcher yields the NotFound outcome: the handler is
never invoked (the outcome is not `executed`), nothing is thrown (the
outcome is a `notFound` value, not `uncaughtError`), the cooldown state is
untouched, and the single best-effort reply is attempted exactly when the
event still accepts a reply (`!replied && !deferred`). -/
theorem unresolvable_command_dispatch (H : HandlerState) (i : Interaction) (ct : CommandType)
    (now : Int) (hct : classify i.ikind = some ct)
    (hmiss : ∀ cmd, Collection.get H.commands i.commandName = some cmd → cmd.type ≠ ct) :
    dispatchInteraction H i now = (.notFound (!i.replied && !i.deferred), H.cooldowns) := by
  simp only [dispatchInteraction, hct]
  cases hg : Collection.get H.commands i.commandName with
  | none => simp
  | some cmd =>
    have hne := hmiss cmd hg
    simp [hne]

theorem unresolvable_command_dispatch_witness :
    dispatchInteraction kickState ⟨.chatInput, "ban", "u1", none, false, false⟩ 0
      = (.notFound true, kickState.cooldowns) := by
  have h := unresolvable_command_dispatch kickState
      ⟨.chatInput, "ban", "u1", none, false, false⟩ .SLASH 0 (by decide)
      (fun cmd hc => by
        have h0 : Collection.get kickState.commands "ban" = none := by decide
        rw [h0] at hc
        exact Option.noConfusion hc)
  simpa using h

/-- C5: component-handler resolution semantics of `_findHandler`: an exact
binding of the same component kind always wins (first conjunct, for every
table state); and with both "confirm_123" (exact) and "confirm_*" (prefix)
bound for the same kind, resolving "confirm_123" yields the exact handler
while resolving "confirm_456" yields the wildcard handler whose stripped
prefix "confirm_" is a literal prefix of it. -/
theorem component_handler_resolution :
    (∀ (hs : HandlerTable) (c : String) (t : HandlerType) (hd : HandlerData),
        Collection.get hs c = some hd → hd.type = t → findHandler hs c t = some hd.handlerId) ∧
    (∀ h1 h2 : Nat,
        findHandler (registerHandler (registerHandler [] "confirm_123" .button h1)
            "confirm_*" .button h2) "confirm_123" .button = some h1 ∧
        findHandler (registerHandler (registerHandler [] "confirm_123" .button h1)
            "confirm_*" .button h2) "confirm_456" .button = some h2) := by
  constructor
  · intro hs c t hd hg ht
    simp [findHandler, hg, ht]
  · intro h1 h2
    exact ⟨rfl, rfl⟩

theorem component_handler_resolution_witness :
    findHandler [("x", ⟨.modal, 3⟩)] "x" .modal = some 3 ∧
    (findHandler (registerHandler (registerHandler [] "confirm_123" .button 0)
        "confirm_*" .button 1) "confirm_123" .button = some 0 ∧
     findHandler (registerHandler (registerHandler [] "confirm_123" .button 0)
        "confirm_*" .button 1) "confirm_456" .button = some 1) :=
  ⟨component_handler_resolution.1 [("x", ⟨.modal, 3⟩)] "x" .modal ⟨.modal, 3⟩ (by decide)
      (by decide),
   component_handler_resolution.2 0 1⟩

/-- C6: last writer wins in the command registry: after two registrations
under the same name (a conflict `loadCommands` reports with a warning and
resolves by overwriting), `resolve(name)` returns exactly the second
descriptor. -/
theorem registry_last_writer_wins (s : Collection String Command) (c1 c2 : Command) (n : String)
    (_h1 : registrationName c1 = some n) (h2 : registrationName c2 = some n) :
    Collection.get (loadOne (loadOne s c1) c2) n = some c2 := by
  generalize loadOne s c1 = s1
  have hkey : Collection.hasKey (Collection.set s1 n c2) n = true := by
    rw [Collection.hasKey_set]; simp
  simp only [loadOne, h2]
  by_cases ht : c2.type = CommandType.LEGACY
  · rw [if_pos ht]
    rw [get_aliasFold_of_hasKey _ _ _ _ hkey]
    exact Collection.get_set_self _ n c2
  · rw [if_neg ht]
    exact Collection.get_set_self _ n c2

/-- Two distinct descriptors registered under the name "ping". -/
def pingV1 : Command := ⟨.SLASH, some "ping", none, [], [], [], [], none, false, false, 10⟩

def pingV2 : Command := ⟨.SLASH, some "ping", none, [], [], [], [], none, false, false, 11⟩

theorem registry_last_writer_wins_witness :
    Collection.get (loadOne (loadOne [] pingV1) pingV2) "ping" = some pingV2 :=
  registry_last_writer_wins [] pingV1 pingV2 "ping" (by decide) (by decide)

/-- C7: alias registration policy of `loadCommands` for a legacy command
registered under canonical name `n` with alias `a`: if `a` collides with
nothing already registered, it resolves to the same descriptor object as the
canonical name; if `a` is already registered (as a canonical name or an
earlier alias), the alias is rejected and the existing mapping for `a` is
unchanged. -/
theorem alias_registration_policy (s : Collection String Command) (cmd : Command) (n a : String)
    (htype : cmd.type = CommandType.LEGACY) (hname : registrationName cmd = some n)
    (hmem : a ∈ cmd.aliases) (hne : a ≠ n) :
    (Collection.hasKey s a = false →
        Collection.get (loadOne s cmd) a = some cmd ∧
        Collection.get (loadOne s cmd) n = some cmd) ∧
    (Collection.hasKey s a = true →
        Collection.get (loadOne s cmd) a = Collection.get s a) := by
  have hload : loadOne s cmd = aliasFold cmd.aliases (Collection.set s n cmd) cmd := by
    simp [loadOne, hname, htype]
  constructor
  · intro hfresh
    have ha : Collection.hasKey (Collection.set s n cmd) a = false := by
      rw [Collection.hasKey_set]
      simp [hne, hfresh]
    constructor
    · rw [hload]
      exact get_aliasFold_of_mem _ _ _ _ hmem ha
    · rw [hload]
      have hk : Collection.hasKey (Collection.set s n cmd) n = true := by
        rw [Collection.hasKey_set]; simp
      rw [get_aliasFold_of_hasKey _ _ _ _ hk]
      exact Collection.get_set_self s n cmd
  · intro hcol
    have ha : Collection.hasKey (Collection.set s n cmd) a = true := by
      rw [Collection.hasKey_set]; simp [hcol]
    rw [hload, get_aliasFold_of_hasKey _ _ _ _ ha]
    exact Collection.get_set_ne s n a cmd hne

/-- A legacy command "ping" whose aliases are the fresh "p" and the
colliding "kick". -/
def legacyPing : Command := ⟨.LEGACY, none, some "ping", ["p", "kick"], [], [], [], none, false, false, 12⟩

theorem alias_registration_policy_witness :
    (Collection.get (loadOne [("kick", kickCmd)] legacyPing) "p" = some legacyPing ∧
     Collection.get (loadOne [("kick", kickCmd)] legacyPing) "ping" = some legacyPing) ∧
    Collection.get (loadOne [("kick", kickCmd)] legacyPing) "kick"
      = Collection.get [("kick", kickCmd)] "kick" :=
  ⟨(alias_registration_policy [("kick", kickCmd)] legacyPing "ping" "p" (by decide) (by decide)
      (by decide) (by decide)).1 (by decide),
   (alias_registration_policy [("kick", kickCmd)] legacyPing "ping" "kick" (by decide) (by decide)
      (by decide) (by decide)).2 (by decide)⟩

/-- C8: for every guild member holding the platform's administrator
capability and every descriptor, the user-capability step of the permission
gate passes regardless of which capabilities are required: the missing set is
empty, and (when the other gate steps impose nothing) the whole gate
allows. -/
theorem admin_bypasses_user_capability_gate (m : Member) (cmd : Command)
    (hadmin : m.permissions.contains "Administrator" = true) :
    missingUserPerms cmd m = [] ∧
    (∀ ownerIds : List String, cmd.devOnly = false → cmd.roles = [] →
        cmd.botPermissions = [] → checkPermissions ownerIds cmd (some m) = Except.ok none) := by
  have hmem : "Administrator" ∈ m.permissions := by simpa using hadmin
  have hmiss : missingUserPerms cmd m = [] := by
    simp [missingUserPerms, hasPermission, hasPermissionSet, hadmin]
    exact fun a _ hcontra => absurd hmem hcontra
  refine ⟨hmiss, ?_⟩
  intro ownerIds hdev hroles hbot
  simp [checkPermissions, hmiss, hdev, hroles, hbot]

theorem admin_bypasses_user_capability_gate_witness :
    missingUserPerms kickCmd adminMember = [] ∧
    checkPermissions [] kickCmd (some adminMember) = Except.ok none :=
  ⟨(admin_bypasses_user_capability_gate adminMember kickCmd (by decide)).1,
   (admin_bypasses_user_capability_gate adminMember kickCmd (by decide)).2 [] (by decide)
      (by decide) (by decide)⟩

/-- C9: evaluation of `registerSlashCommands` around remote-push failure.
The not-yet-authenticated/identified paths are logged early returns
(`noToken`, `noApplicationId`); but when the remote put call throws, the
catch block itself raises `ReferenceError: locationDescription is not
defined` (the variable is let-scoped to the try block), so the failure is
NOT logged-and-contained — the rejection escapes the method.  In every case
the in-process command table is returned unchanged. -/
theorem registration_push_failure_eval :
    registerSlashCommands [("kick", kickCmd)] ⟨some "token", some "app", true⟩
        = (.rejectedWith (JsError.referenceError "locationDescription"), [("kick", kickCmd)]) ∧
    registerSlashCommands [("kick", kickCmd)] ⟨none, some "app", false⟩
        = (.noToken, [("kick", kickCmd)]) ∧
    registerSlashCommands [("kick", kickCmd)] ⟨some "token", none, false⟩
        = (.noApplicationId, [("kick", kickCmd)]) ∧
    registerSlashCommands [("kick", kickCmd)] ⟨some "token", some "app", false⟩
        = (.registered 1, [("kick", kickCmd)]) := by
  decide

/-- C10: component-handler bindings are keyed by pattern alone, not by
(pattern, kind): rebinding the same exact non-wildcard pattern under a
different component kind replaces the earlier binding entirely, so the
pattern no longer resolves for the first kind (it falls through the wildcard
scan to NotFound) and resolves to the new handler for the second kind. -/
theorem rebound_pattern_drops_old_kind (p : String) (h1 h2 : Nat)
    (hw : strEndsWith p "*" = false) :
    Collection.get (registerHandler (registerHandler [] p .button h1) p .modal h2) p
        = some ⟨.modal, h2⟩ ∧
    findHandler (registerHandler (registerHandler [] p .button h1) p .modal h2) p .button
        = none ∧
    findHandler (registerHandler (registerHandler [] p .button h1) p .modal h2) p .modal
        = some h2 := by
  have htab : registerHandler (registerHandler [] p .button h1) p .modal h2
      = [(p, ⟨.modal, h2⟩)] := by
    simp [registerHandler, Collection.set]
  refine ⟨?_, ?_, ?_⟩
  · rw [htab]
    simp [Collection.get]
  · rw [htab]
    simp [findHandler, Collection.get, hw]
  · rw [htab]
    simp [findHandler, Collection.get]

theorem rebound_pattern_drops_old_kind_witness :
    Collection.get (registerHandler (registerHandler [] "confirm_9" .button 4) "confirm_9"
        .modal 5) "confirm_9" = some ⟨.modal, 5⟩ ∧
    findHandler (registerHandler (registerHandler [] "confirm_9" .button 4) "confirm_9" .modal 5)
        "confirm_9" .button = none ∧
    findHandler (registerHandler (registerHandler [] "confirm_9" .button 4) "confirm_9" .modal 5)
        "confirm_9" .modal = some 5 :=
  rebound_pattern_drops_old_kind "confirm_9" 4 5 (by decide)

end DjsSuite
